import Mathlib

/-!
Shallow embedding of `src/script.js` (client-side calorie / macro tracking
widget).  JavaScript numbers are modelled by `ℚ` (every arithmetic step in
the source is exact on the representable inputs), strings by `String`,
arrays by `List`.  `Math.round` is `⌊x + 1/2⌋` (JS rounds half toward +∞),
`Math.ceil` is `⌈x⌉`, `Array.prototype.splice(start, 1)` keeps the
ECMAScript clamping rules, and `String.prototype.trim` drops the
ECMAScript whitespace set from both ends.
-/

namespace FatLossApp

/-- JavaScript `Math.round`: round half toward positive infinity,
i.e. `⌊x + 1/2⌋`. -/
def jsRound (q : ℚ) : ℤ := ⌊q + 1 / 2⌋

/-- JavaScript `Math.ceil`. -/
def jsCeil (q : ℚ) : ℤ := ⌈q⌉

/-- The ECMAScript whitespace set used by `String.prototype.trim`:
`WhiteSpace` (tab, VT, FF, space, NBSP, ZWNBSP/BOM and the Zs
space separators U+1680, U+2000-U+200A, U+202F, U+205F, U+3000)
together with `LineTerminator` (LF, CR, LS U+2028, PS U+2029). -/
def jsWhitespaceChar (c : Char) : Bool :=
  c = '\t' || c = '\n' || c = '\x0b' || c = '\x0c' || c = '\r' ||
  c = ' ' || c = '\u00A0' || c = '\u1680' ||
  ('\u2000' ≤ c && c ≤ '\u200A') ||
  c = '\u2028' || c = '\u2029' || c = '\u202F' || c = '\u205F' ||
  c = '\u3000' || c = '\uFEFF'

/-- Drop leading and trailing whitespace from a character list. -/
def jsTrimChars (l : List Char) : List Char :=
  ((l.dropWhile jsWhitespaceChar).reverse.dropWhile jsWhitespaceChar).reverse

/-- JavaScript `String.prototype.trim`. -/
def jsTrim (s : String) : String := String.mk (jsTrimChars s.data)

/-- Macro constant `CAL_PER_GRAM_PROTEIN = 4` (script.js line 26). -/
def CAL_PER_GRAM_PROTEIN : ℚ := 4

/-- Macro constant `CAL_PER_GRAM_CARBS = 4` (script.js line 27). -/
def CAL_PER_GRAM_CARBS : ℚ := 4

/-- Macro constant `CAL_PER_GRAM_FAT = 9` (script.js line 28). -/
def CAL_PER_GRAM_FAT : ℚ := 9

/-- `calculateBMR` (script.js lines 42-52): Mifflin-St Jeor, with the
source's `else` branch taking every sex value other than `"male"`. -/
def calculateBMR (weight height age : ℚ) (sex : String) : ℤ :=
  if sex = "male" then
    jsRound (10 * weight + 6.25 * height - 5 * age + 5)
  else
    jsRound (10 * weight + 6.25 * height - 5 * age - 161)

/-- `calculateExerciseAdjustment` (script.js lines 61-63). -/
def calculateExerciseAdjustment (time multiplier : ℚ) : ℤ :=
  jsRound (time * multiplier)

/-- The `finalDailyGoal` computed by `handleCalorieGoal` (script.js
lines 157-162): `bmr + exerciseAdjustment`, maintenance only. -/
def finalDailyGoal (weight height age : ℚ) (sex : String)
    (trainingTime trainingMultiplier : ℚ) : ℤ :=
  calculateBMR weight height age sex +
    calculateExerciseAdjustment trainingTime trainingMultiplier

/-- The macro gram targets displayed by `handleCalorieGoal`. -/
structure MacroTargets where
  gramsProtein : ℤ
  gramsCarbs : ℤ
  gramsFat : ℤ
deriving DecidableEq

/-- Macro computation of `handleCalorieGoal` (script.js lines 164-176):
50% carbs, 25% protein, 25% fat of the goal, each converted to grams by
its calorie-per-gram constant and rounded. -/
def allocateMacros (dailyGoal : ℚ) : MacroTargets :=
  let calCarbs := dailyGoal * 0.50
  let calProtein := dailyGoal * 0.25
  let calFat := dailyGoal * 0.25
  { gramsProtein := jsRound (calProtein / CAL_PER_GRAM_PROTEIN)
    gramsCarbs := jsRound (calCarbs / CAL_PER_GRAM_CARBS)
    gramsFat := jsRound (calFat / CAL_PER_GRAM_FAT) }

/-- Outcome of the goal-timeline computation in `handleCalorieGoal`
(script.js lines 180-189): either the "already reached / weight gain"
message carrying the goal weight, or a whole number of weeks. -/
inductive TimelineOutcome where
  | alreadyAtOrPastGoal (goalWeight : ℚ)
  | weeksRemaining (totalTimeWeeks : ℤ)
deriving DecidableEq

/-- Timeline computation of `handleCalorieGoal` (script.js lines 180-189). -/
def projectTimeline (currentWeight goalWeight weeklyLossRate : ℚ) :
    TimelineOutcome :=
  let weightDifference := currentWeight - goalWeight
  if weightDifference ≤ 0 then
    .alreadyAtOrPastGoal goalWeight
  else
    .weeksRemaining (jsCeil (weightDifference / weeklyLossRate))

/-- A food-log item `{ name, calories }` (script.js line 231). -/
structure FoodEntry where
  name : String
  calories : ℤ
deriving DecidableEq

/-- The food log: an ordered array of entries. -/
abbrev FoodLog := List FoodEntry

/-- `handleFoodLog` (script.js lines 221-246), restricted to its state
effect: the input name is trimmed; when the trimmed name is non-empty
(JS truthiness of a string) and `calories > 0` the entry is pushed onto
the log, otherwise the log is untouched and a validation alert is shown.
Returns the resulting log and `true` on success, `false` on the alert
branch. -/
def handleFoodLog (foodLog : FoodLog) (name : String) (calories : ℤ) :
    FoodLog × Bool :=
  let trimmed := jsTrim name
  if trimmed ≠ "" ∧ 0 < calories then
    (foodLog ++ [{ name := trimmed, calories := calories }], true)
  else
    (foodLog, false)

/-- ECMAScript `Array.prototype.splice(start, 1)`: a negative `start`
counts from the end clamped at 0, a `start` past the end deletes
nothing. -/
def spliceOne {α : Type} (l : List α) (start : ℤ) : List α :=
  let len : ℤ := l.length
  let actualStart : ℕ :=
    if start < 0 then (max (len + start) 0).toNat else (min start len).toNat
  l.take actualStart ++ l.drop (actualStart + 1)

/-- `handleDeleteFood` (script.js lines 251-267), state effect:
`foodLog.splice(indexToDelete, 1)`. -/
def handleDeleteFood (foodLog : FoodLog) (indexToDelete : ℤ) : FoodLog :=
  spliceOne foodLog indexToDelete

/-- `handleResetDay` (script.js lines 272-278), state effect: clears the
log when the confirmation prompt is accepted, otherwise does nothing. -/
def handleResetDay (foodLog : FoodLog) (confirmed : Bool) : FoodLog :=
  if confirmed then [] else foodLog

/-- The running total of `renderLogAndSummary` (script.js lines 96-109):
`totalConsumed` accumulated over the log in order. -/
def totalConsumed (log : FoodLog) : ℤ :=
  log.foldl (fun acc item => acc + item.calories) 0

/-- The summary derived by `renderLogAndSummary` (script.js lines
94-118): consumed total and `remaining = goal - totalConsumed`. -/
def computeSummary (log : FoodLog) (goal : ℤ) : ℤ × ℤ :=
  (totalConsumed log, goal - totalConsumed log)

/-- One user-triggered mutation of the food log. -/
inductive LedgerOp where
  | add (name : String) (calories : ℤ)
  | delete (indexToDelete : ℤ)
  | reset (confirmed : Bool)

/-- Apply one ledger operation to the stored log, as the event handlers
do. -/
def applyOp (log : FoodLog) : LedgerOp → FoodLog
  | .add name calories => (handleFoodLog log name calories).1
  | .delete i => handleDeleteFood log i
  | .reset confirmed => handleResetDay log confirmed

/-- An entry with positive calories and a non-empty name. -/
def WellFormedEntry (e : FoodEntry) : Prop :=
  0 < e.calories ∧ e.name ≠ ""

/-- Every entry of the log is well formed. -/
def WellFormedLog (log : FoodLog) : Prop :=
  ∀ e ∈ log, WellFormedEntry e

/-! ## Helper lemmas -/

/-- `Math.round` lands within `1/2` of its argument. -/
theorem jsRound_dist (q : ℚ) : |(jsRound q : ℚ) - q| ≤ 1 / 2 := by
  unfold jsRound
  rw [abs_le]
  constructor
  · have h := Int.sub_one_lt_floor (q + 1 / 2)
    push_cast at h ⊢
    linarith
  · have h := Int.floor_le (q + 1 / 2)
    push_cast at h ⊢
    linarith

/-- A character list trims to nothing exactly when it is all whitespace. -/
theorem jsTrimChars_eq_nil_iff (l : List Char) :
    jsTrimChars l = [] ↔ ∀ c ∈ l, jsWhitespaceChar c := by
  unfold jsTrimChars
  rw [List.reverse_eq_nil_iff, List.dropWhile_eq_nil_iff]
  constructor
  · intro h c hc
    rw [← List.takeWhile_append_dropWhile (p := jsWhitespaceChar) (l := l)]
      at hc
    rcases List.mem_append.mp hc with h1 | h2
    · exact List.mem_takeWhile_imp h1
    · exact h c (List.mem_reverse.mpr h2)
  · intro h c hc
    refine h c ?_
    have h2 := List.mem_reverse.mp hc
    rw [← List.takeWhile_append_dropWhile (p := jsWhitespaceChar) (l := l)]
    exact List.mem_append.mpr (Or.inr h2)

/-- A string trims to the empty string exactly when it is empty or
whitespace-only. -/
theorem jsTrim_eq_empty_iff (s : String) :
    jsTrim s = "" ↔ ∀ c ∈ s.data, jsWhitespaceChar c := by
  rw [← jsTrimChars_eq_nil_iff]
  unfold jsTrim
  constructor
  · intro h
    have := congrArg String.data h
    simpa using this
  · intro h
    rw [h]

/-- Unfolding of `handleFoodLog` with its local binding inlined. -/
theorem handleFoodLog_eq (foodLog : FoodLog) (name : String) (calories : ℤ) :
    handleFoodLog foodLog name calories
      = if jsTrim name ≠ "" ∧ 0 < calories then
          (foodLog ++ [{ name := jsTrim name, calories := calories }], true)
        else
          (foodLog, false) := rfl

/-- Unfolding of `projectTimeline` with its local binding inlined. -/
theorem projectTimeline_eq (currentWeight goalWeight weeklyLossRate : ℚ) :
    projectTimeline currentWeight goalWeight weeklyLossRate
      = if currentWeight - goalWeight ≤ 0 then
          .alreadyAtOrPastGoal goalWeight
        else
          .weeksRemaining
            (jsCeil ((currentWeight - goalWeight) / weeklyLossRate)) := rfl

/-- Unfolding of `spliceOne` with its local bindings inlined. -/
theorem spliceOne_eq {α : Type} (l : List α) (start : ℤ) :
    spliceOne l start
      = (l.take (if start < 0 then (max ((l.length : ℤ) + start) 0).toNat
            else (min start (l.length : ℤ)).toNat))
        ++ (l.drop ((if start < 0 then (max ((l.length : ℤ) + start) 0).toNat
            else (min start (l.length : ℤ)).toNat) + 1)) := rfl

/-- The `forEach` accumulation of `renderLogAndSummary` computes the sum
of the calories, whatever the starting accumulator. -/
theorem foldl_calories_eq (log : FoodLog) :
    ∀ a : ℤ, log.foldl (fun acc item => acc + item.calories) a
      = a + (log.map FoodEntry.calories).sum := by
  induction log with
  | nil => intro a; simp
  | cons e t ih =>
    intro a
    simp only [List.foldl_cons, List.map_cons, List.sum_cons, ih]
    ring

/-- One ledger operation keeps every entry well formed. -/
theorem applyOp_wellFormed (log : FoodLog) (op : LedgerOp)
    (hw : WellFormedLog log) : WellFormedLog (applyOp log op) := by
  cases op with
  | add name calories =>
    show WellFormedLog (handleFoodLog log name calories).1
    rw [handleFoodLog_eq]
    split
    · next hcond =>
      intro e he
      rcases List.mem_append.mp he with h1 | h2
      · exact hw e h1
      · rw [List.mem_singleton] at h2
        subst h2
        exact ⟨hcond.2, hcond.1⟩
    · exact hw
  | delete i =>
    intro e he
    apply hw
    simp only [applyOp, handleDeleteFood, spliceOne] at he
    rcases List.mem_append.mp he with h1 | h2
    · exact List.take_subset _ _ h1
    · exact List.drop_subset _ _ h2
  | reset confirmed =>
    show WellFormedLog (handleResetDay log confirmed)
    unfold handleResetDay
    split
    · intro e he
      exact absurd he (List.not_mem_nil e)
    · exact hw

/-- A well-formed log stays well formed under any sequence of ledger
operations. -/
theorem foldl_wellFormed (ops : List LedgerOp) :
    ∀ log : FoodLog, WellFormedLog log
      → WellFormedLog (ops.foldl applyOp log) := by
  induction ops with
  | nil => exact fun _ h => h
  | cons op rest ih =>
    intro log h
    exact ih _ (applyOp_wellFormed _ _ h)

/-! ## Claims -/

/-- C1: `calculateBMR` returns the Mifflin-St Jeor value rounded to the
nearest integer: `round(10*weight + 6.25*height - 5*age + 5)` when
`sex = "male"`, and `round(10*weight + 6.25*height - 5*age - 161)` for
every other sex string, which falls through to the female branch; and
the result is within `1/2` of the exact formula value. -/
theorem calculateBMR_spec (weight height age : ℚ) (sex : String) :
    (sex = "male" →
      calculateBMR weight height age sex
        = jsRound (10 * weight + 6.25 * height - 5 * age + 5)) ∧
    (sex ≠ "male" →
      calculateBMR weight height age sex
        = jsRound (10 * weight + 6.25 * height - 5 * age - 161)) ∧
    |(calculateBMR weight height age sex : ℚ)
        - (if sex = "male" then 10 * weight + 6.25 * height - 5 * age + 5
           else 10 * weight + 6.25 * height - 5 * age - 161)| ≤ 1 / 2 := by
  refine ⟨fun h => by rw [calculateBMR, if_pos h],
    fun h => by rw [calculateBMR, if_neg h], ?_⟩
  unfold calculateBMR
  split
  · exact jsRound_dist _
  · exact jsRound_dist _

/-- Witness for C1 at concrete biometrics, both for `"male"` and for an
unrecognized sex string. -/
theorem calculateBMR_spec_witness :
    calculateBMR 70 175 30 "male"
      = jsRound (10 * 70 + 6.25 * 175 - 5 * 30 + 5) ∧
    calculateBMR 70 175 30 "unknown"
      = jsRound (10 * 70 + 6.25 * 175 - 5 * 30 - 161) :=
  ⟨(calculateBMR_spec 70 175 30 "male").1 rfl,
   (calculateBMR_spec 70 175 30 "unknown").2.1 (by decide)⟩

/-- C2: the daily goal is exactly `calculateBMR + calculateExerciseAdjustment`
as integers, with the exercise adjustment equal to
`round(durationMinutes * intensityMultiplier)`; no deficit enters. -/
theorem finalDailyGoal_spec (weight height age : ℚ) (sex : String)
    (durationMinutes intensityMultiplier : ℚ) :
    finalDailyGoal weight height age sex durationMinutes intensityMultiplier
      = calculateBMR weight height age sex
        + calculateExerciseAdjustment durationMinutes intensityMultiplier ∧
    calculateExerciseAdjustment durationMinutes intensityMultiplier
      = jsRound (durationMinutes * intensityMultiplier) :=
  ⟨rfl, rfl⟩

/-- C3: `allocateMacros` rounds `dailyGoal*0.50/4` carb grams,
`dailyGoal*0.25/4` protein grams and `dailyGoal*0.25/9` fat grams, and at
`dailyGoal = 2000` yields protein 125 g, carbs 250 g, fat 56 g. -/
theorem allocateMacros_spec (dailyGoal : ℚ) :
    (allocateMacros dailyGoal).gramsCarbs = jsRound (dailyGoal * 0.50 / 4) ∧
    (allocateMacros dailyGoal).gramsProtein = jsRound (dailyGoal * 0.25 / 4) ∧
    (allocateMacros dailyGoal).gramsFat = jsRound (dailyGoal * 0.25 / 9) ∧
    allocateMacros 2000 = ⟨125, 250, 56⟩ := by
  refine ⟨rfl, rfl, rfl, ?_⟩
  have h : allocateMacros 2000
      = ⟨jsRound ((2000 : ℚ) * 0.25 / 4), jsRound ((2000 : ℚ) * 0.50 / 4),
          jsRound ((2000 : ℚ) * 0.25 / 9)⟩ := rfl
  rw [h]
  simp only [MacroTargets.mk.injEq, jsRound]
  norm_num

/-- C4: the timeline is `AlreadyAtOrPastGoal` exactly when
`currentWeight - goalWeight ≤ 0`, otherwise
`WeeksRemaining(ceil((currentWeight - goalWeight) / weeklyLossRate))`;
in particular `(80, 75, 0.5)` gives 10 weeks and `(70, 75, 0.5)` reports
the goal already reached. -/
theorem projectTimeline_spec (currentWeight goalWeight weeklyLossRate : ℚ)
    (hrate : 0 < weeklyLossRate) :
    (projectTimeline currentWeight goalWeight weeklyLossRate
        = .alreadyAtOrPastGoal goalWeight
      ↔ currentWeight - goalWeight ≤ 0) ∧
    (goalWeight < currentWeight →
      projectTimeline currentWeight goalWeight weeklyLossRate
        = .weeksRemaining
            (jsCeil ((currentWeight - goalWeight) / weeklyLossRate))) ∧
    projectTimeline 80 75 0.5 = .weeksRemaining 10 ∧
    projectTimeline 70 75 0.5 = .alreadyAtOrPastGoal 75 := by
  refine ⟨?_, ?_, ?_, ?_⟩
  · rw [projectTimeline_eq]
    split
    · next h => exact iff_of_true rfl h
    · next h => exact iff_of_false (by simp) h
  · intro h
    rw [projectTimeline_eq, if_neg (by rw [not_le, sub_pos]; exact h)]
  · have hgt : ¬ ((80 : ℚ) - 75 ≤ 0) := by norm_num
    rw [projectTimeline_eq, if_neg hgt]
    have : jsCeil (((80 : ℚ) - 75) / 0.5) = 10 := by
      unfold jsCeil
      norm_num
    rw [this]
  · have hle : (70 : ℚ) - 75 ≤ 0 := by norm_num
    rw [projectTimeline_eq, if_pos hle]

/-- Witness for C4: a concrete loss scenario on the weeks branch. -/
theorem projectTimeline_spec_witness :
    projectTimeline 80 75 2
      = .weeksRemaining (jsCeil ((80 - 75) / 2)) :=
  (projectTimeline_spec 80 75 2 (by decide)).2.1 (by decide)

/-- C5: `addEntry` (the state effect of `handleFoodLog`) fails exactly
when the name is empty or whitespace-only or the calories are
non-positive; on failure the log is unmodified, otherwise the single new
entry is appended at the end. -/
theorem handleFoodLog_spec (log : FoodLog) (name : String) (calories : ℤ) :
    ((handleFoodLog log name calories).2 = false ↔
      (∀ c ∈ name.data, jsWhitespaceChar c) ∨ calories ≤ 0) ∧
    ((handleFoodLog log name calories).2 = false →
      (handleFoodLog log name calories).1 = log) ∧
    ((handleFoodLog log name calories).2 = true →
      (handleFoodLog log name calories).1
        = log ++ [{ name := jsTrim name, calories := calories }]) := by
  have hiff : (¬ (jsTrim name ≠ "" ∧ 0 < calories))
      ↔ ((∀ c ∈ name.data, jsWhitespaceChar c) ∨ calories ≤ 0) := by
    rw [not_and_or, not_not, not_lt, jsTrim_eq_empty_iff]
  rw [handleFoodLog_eq]
  by_cases hc : jsTrim name ≠ "" ∧ 0 < calories
  · rw [if_pos hc]
    refine ⟨iff_of_false (by simp) (fun h => hiff.mpr h hc), ?_, fun _ => rfl⟩
    intro h
    exact absurd h (by simp)
  · rw [if_neg hc]
    exact ⟨iff_of_true rfl (hiff.mp hc), fun _ => rfl, fun h => absurd h (by simp)⟩

/-- Witness for C5: non-positive calories are rejected and the log stays
empty. -/
theorem handleFoodLog_spec_witness :
    (handleFoodLog [] "Apple" 0).2 = false ∧
    (handleFoodLog [] "Apple" 0).1 = [] := by
  have h := handleFoodLog_spec [] "Apple" 0
  exact ⟨h.1.mpr (Or.inr le_rfl), h.2.1 (h.1.mpr (Or.inr le_rfl))⟩

/-- C6 counterexample: `-1` is outside the bounds of a two-entry log,
yet `handleDeleteFood` is not a no-op there: JS `splice` counts a
negative index from the end and removes the last entry. -/
theorem handleDeleteFood_counterexample :
    ((-1 : ℤ) < 0 ∨
        ((([⟨"Apple", 95⟩, ⟨"Bread", 120⟩] : FoodLog).length : ℤ) ≤ -1)) ∧
    handleDeleteFood [⟨"Apple", 95⟩, ⟨"Bread", 120⟩] (-1)
      ≠ [⟨"Apple", 95⟩, ⟨"Bread", 120⟩] := by decide

/-- C6 (amended): in-bounds deletion keeps the entries before the index
followed by the entries after it; an index at or past the length is a
no-op; a negative index `i` acts at position `max(length + i, 0)` as JS
`splice` does; and `deleteEntry(0)` on a two-entry log keeps exactly the
second entry. -/
theorem handleDeleteFood_spec (log : FoodLog) (i : ℤ) :
    (0 ≤ i → i < (log.length : ℤ) →
      handleDeleteFood log i
        = log.take i.toNat ++ log.drop (i.toNat + 1)) ∧
    ((log.length : ℤ) ≤ i → handleDeleteFood log i = log) ∧
    (i < 0 →
      handleDeleteFood log i
        = log.take ((log.length : ℤ) + i).toNat
            ++ log.drop (((log.length : ℤ) + i).toNat + 1)) ∧
    handleDeleteFood [⟨"Apple", 95⟩, ⟨"Bread", 120⟩] 0
      = [⟨"Bread", 120⟩] := by
  refine ⟨?_, ?_, ?_, by decide⟩
  · intro h0 hlt
    rw [handleDeleteFood, spliceOne_eq, if_neg (not_lt.mpr h0)]
    have h : (min i (log.length : ℤ)).toNat = i.toNat := by omega
    rw [h]
  · intro h
    have h0 : (0 : ℤ) ≤ i := le_trans (Int.natCast_nonneg _) h
    rw [handleDeleteFood, spliceOne_eq, if_neg (not_lt.mpr h0)]
    have hmin : (min i (log.length : ℤ)).toNat = log.length := by omega
    rw [hmin, List.take_length, List.drop_eq_nil_of_le (Nat.le_succ _),
      List.append_nil]
  · intro h
    rw [handleDeleteFood, spliceOne_eq, if_pos h]
    have hmax : (max ((log.length : ℤ) + i) 0).toNat
        = ((log.length : ℤ) + i).toNat := by omega
    rw [hmax]

/-- Witness for C6 (amended) at a concrete in-bounds index. -/
theorem handleDeleteFood_spec_witness :
    handleDeleteFood [⟨"Apple", 95⟩, ⟨"Bread", 120⟩] 1
      = ([⟨"Apple", 95⟩, ⟨"Bread", 120⟩] : FoodLog).take (1 : ℤ).toNat
        ++ ([⟨"Apple", 95⟩, ⟨"Bread", 120⟩] : FoodLog).drop
            ((1 : ℤ).toNat + 1) :=
  (handleDeleteFood_spec [⟨"Apple", 95⟩, ⟨"Bread", 120⟩] 1).1
    (by decide) (by decide)

/-- C7: the summary consumed value is the sum of all entries' calories
and the remaining value is `goal - consumed`; adding a 95-calorie and a
120-calorie entry to an empty log with goal 2000 gives `(215, 1785)`,
and remaining may be negative. -/
theorem computeSummary_spec (log : FoodLog) (goal : ℤ) :
    (computeSummary log goal).1 = (log.map FoodEntry.calories).sum ∧
    (computeSummary log goal).2 = goal - (log.map FoodEntry.calories).sum ∧
    computeSummary
        ((handleFoodLog ((handleFoodLog [] "Apple" 95).1) "Bread" 120).1) 2000
      = (215, 1785) ∧
    (computeSummary [⟨"Feast", 3000⟩] 2000).2 = -1000 := by
  have h : totalConsumed log = (log.map FoodEntry.calories).sum := by
    have h0 := foldl_calories_eq log 0
    simpa [totalConsumed] using h0
  refine ⟨h, ?_, by decide, by decide⟩
  show goal - totalConsumed log = goal - (log.map FoodEntry.calories).sum
  rw [h]

/-- C8: starting from the empty log, every sequence of ledger operations
(add, delete, reset) leaves a log whose entries all have positive
calories and a non-empty name; only `addEntry` creates entries and it
rejects violating ones. -/
theorem foodLog_invariant (ops : List LedgerOp) :
    WellFormedLog (ops.foldl applyOp []) :=
  foldl_wellFormed ops [] (fun e he => absurd he (List.not_mem_nil e))

/-- C9: each macro gram value is rounded independently with error at
most half a gram, so the calorie equivalent
`4*protein + 4*carbs + 9*fat` differs from the daily goal by at most
`4*0.5 + 4*0.5 + 9*0.5 = 8.5` calories. -/
theorem allocateMacros_calorieSum_approx (dailyGoal : ℤ) :
    |4 * (((allocateMacros (dailyGoal : ℚ)).gramsProtein : ℚ))
        + 4 * (((allocateMacros (dailyGoal : ℚ)).gramsCarbs : ℚ))
        + 9 * (((allocateMacros (dailyGoal : ℚ)).gramsFat : ℚ))
        - (dailyGoal : ℚ)| ≤ 17 / 2 ∧
    |(((allocateMacros (dailyGoal : ℚ)).gramsProtein : ℚ))
        - (dailyGoal : ℚ) * 0.25 / 4| ≤ 1 / 2 ∧
    |(((allocateMacros (dailyGoal : ℚ)).gramsCarbs : ℚ))
        - (dailyGoal : ℚ) * 0.50 / 4| ≤ 1 / 2 ∧
    |(((allocateMacros (dailyGoal : ℚ)).gramsFat : ℚ))
        - (dailyGoal : ℚ) * 0.25 / 9| ≤ 1 / 2 := by
  have ep : (allocateMacros (dailyGoal : ℚ)).gramsProtein
      = jsRound ((dailyGoal : ℚ) * 0.25 / 4) := rfl
  have ec : (allocateMacros (dailyGoal : ℚ)).gramsCarbs
      = jsRound ((dailyGoal : ℚ) * 0.50 / 4) := rfl
  have ef : (allocateMacros (dailyGoal : ℚ)).gramsFat
      = jsRound ((dailyGoal : ℚ) * 0.25 / 9) := rfl
  have hp := jsRound_dist ((dailyGoal : ℚ) * 0.25 / 4)
  have hc := jsRound_dist ((dailyGoal : ℚ) * 0.50 / 4)
  have hf := jsRound_dist ((dailyGoal : ℚ) * 0.25 / 9)
  rw [ep, ec, ef]
  refine ⟨?_, hp, hc, hf⟩
  rw [abs_le] at hp hc hf ⊢
  have h25 : (0.25 : ℚ) = 1 / 4 := by norm_num
  have h50 : (0.50 : ℚ) = 1 / 2 := by norm_num
  simp only [h25, h50] at hp hc hf ⊢
  constructor
  · linarith
  · linarith

/-- C10: whenever `handleFoodLog` accepts an entry, the stored name is
the trimmed input name, not the raw one. -/
theorem handleFoodLog_stores_trimmed_name (log : FoodLog) (name : String)
    (calories : ℤ) :
    (handleFoodLog log name calories).2 = true →
    ∃ e : FoodEntry, (handleFoodLog log name calories).1 = log ++ [e]
      ∧ e.name = jsTrim name ∧ e.calories = calories := by
  rw [handleFoodLog_eq]
  split
  · intro _
    exact ⟨⟨jsTrim name, calories⟩, rfl, rfl, rfl⟩
  · intro h
    exact absurd h (by simp)

/-- Witness for C10: a name with surrounding blanks is stored trimmed. -/
theorem handleFoodLog_stores_trimmed_name_witness :
    jsTrim " Apple " = "Apple" ∧
    (∃ e : FoodEntry, (handleFoodLog [] " Apple " 95).1 = [] ++ [e]
      ∧ e.name = jsTrim " Apple " ∧ e.calories = 95) :=
  ⟨by decide, handleFoodLog_stores_trimmed_name [] " Apple " 95 (by decide)⟩

end FatLossApp
